import Mathlib

/-!
Verification of the collection-view / export / redaction core of the
express-mongodb-gem repository (mongo-express collection routes).

The source is JavaScript; we shallow-embed the relevant functions over an
explicit model of JavaScript/JSON values (`JsValue`).  External collaborators
(the document-store driver, `JSON.parse`, the safe-expression evaluator
`bson.toSafeBSON`, the byte-size estimator `utils.roughSizeOfObject` and the
human-readable size formatter `utils.bytesToSize`) are passed in as
parameters or modelled from the specification where noted.
-/

namespace MongoGem

/-- Model of a JavaScript/JSON value as manipulated by the routes.
`vUndef` models JavaScript `undefined` (e.g. a missing object property);
`vNan` models the not-a-number sentinel produced by `Number()` on
non-numeric input; `vObjectId`, `vRegex` and `vBinary` model the BSON
values produced by the `O`, `R` and `U` type converters of `_getQuery`. -/
inductive JsValue where
  | vNull : JsValue
  | vUndef : JsValue
  | vNan : JsValue
  | vBool : Bool → JsValue
  | vNum : Int → JsValue
  | vStr : String → JsValue
  | vArr : List JsValue → JsValue
  | vObj : List (String × JsValue) → JsValue
  | vObjectId : String → JsValue
  | vRegex : String → String → JsValue
  | vBinary : String → Nat → JsValue

namespace JsValue

/-- Escape one character the way `JSON.stringify` does for the characters
relevant here (quote and backslash; other characters pass through). -/
def escChar (c : Char) : String :=
  if c = '"' then "\\\"" else if c = '\\' then "\\\\" else String.singleton c

/-- Escape a string body the way `JSON.stringify` does. -/
def escString (s : String) : String :=
  String.join (s.toList.map escChar)

mutual

/-- Model of `JSON.stringify` on a `JsValue` (no spacing).  Keys whose value
is `undefined` are omitted from objects, as `JSON.stringify` does; a bare
`undefined` serializes as the empty string here (JS returns `undefined`,
which never occurs in the paths we verify). -/
def toJson : JsValue → String
  | vNull => "null"
  | vUndef => ""
  | vNan => "null"
  | vBool b => if b then "true" else "false"
  | vNum n => toString n
  | vStr s => "\"" ++ escString s ++ "\""
  | vArr xs => "[" ++ toJsonElems xs ++ "]"
  | vObj fs => "\x7b" ++ toJsonFields fs ++ "\x7d"
  | vObjectId h => "\"" ++ h ++ "\""
  | vRegex p f => "\"/" ++ escString p ++ "/" ++ f ++ "\""
  | vBinary h sub => "\x7b\"base64\":\"" ++ h ++ "\",\"subType\":\"" ++ toString sub ++ "\"\x7d"

/-- Serialize the elements of an array, comma separated. -/
def toJsonElems : List JsValue → String
  | [] => ""
  | [x] => toJson x
  | x :: y :: xs => toJson x ++ "," ++ toJsonElems (y :: xs)

/-- Serialize the fields of an object, comma separated, skipping
`undefined`-valued fields as `JSON.stringify` does. -/
def toJsonFields : List (String × JsValue) → String
  | [] => ""
  | (_, vUndef) :: fs => toJsonFields fs
  | (k, v) :: [] => "\"" ++ escString k ++ "\":" ++ toJson v
  | (k, v) :: f :: fs => "\"" ++ escString k ++ "\":" ++ toJson v ++ "," ++ toJsonFields (f :: fs)

end

/-- Model of JavaScript `String.prototype.slice(0, n)` (character-wise;
the previews we reason about are ASCII). -/
def sliceStr (s : String) (n : Nat) : String :=
  String.mk (s.toList.take n)

/-- `Array.isArray` on the model. -/
def isArr : JsValue → Bool
  | vArr _ => true
  | _ => false

/-- The elements of an array value (`[]` on non-arrays). -/
def arrElems : JsValue → List JsValue
  | vArr xs => xs
  | _ => []

/-- Model of `Object.keys(v).length` for the values that reach it in the
routes (objects and arrays; strings enumerate their indices; other
primitives have no keys). -/
def jsKeysLen : JsValue → Nat
  | vObj fs => fs.length
  | vArr xs => xs.length
  | vStr s => s.length
  | _ => 0

end JsValue

/-! ## Documents and external collaborators -/

/-- A document: an ordered list of named fields, modelling a JS object's
own enumerable string-keyed properties in insertion order. -/
abbrev Doc := List (String × JsValue)

/-- Property read `d[k]`: the value of the first field named `k`,
`undefined` when absent. -/
def lookupField (d : Doc) (k : String) : JsValue :=
  match d.find? (fun p => p.1 == k) with
  | some p => p.2
  | none => JsValue.vUndef

/-- Property write `d[k] = v`: replace the value of the field(s) named `k`
(a JS object has at most one). -/
def setField (d : Doc) (k : String) (v : JsValue) : Doc :=
  d.map (fun p => if p.1 = k then (k, v) else p)

/-- The key list of a document, in insertion order (`for (const k in d)`). -/
def keysOf (d : Doc) : List String := d.map Prod.fst

/-- The external collaborators consumed by the routes (spec §6), passed in
as opaque functions: `JSON.parse` (a parse failure, which JS signals by
throwing, is `none`), the safe-expression evaluator `bson.toSafeBSON`
(`none` signals invalid/unsafe input) and `Number.parseInt(s, 10)`
(`vNan` on non-numeric input). -/
structure External where
  jsonParse : String → Option JsValue
  toSafeBSON : String → Option JsValue
  parseIntDec : String → JsValue

/-- The request parameters read by the collection routes
(`req.query.key`, `.value`, `.type`, `.query`, `.sort`, `.projection`,
`.skip`, `.runAggregate`).  Absent string parameters are modelled as `""`
(JS `undefined` and `""` are equally falsy in every test the routes make
on them); `type` keeps its `Option` since the source applies `?.` to it. -/
structure ReqQuery where
  key : String
  value : String
  type : Option String
  query : String
  sort : List (String × String)
  projection : String
  skip : String
  runAggregate : String

/-- Build-time failures of the filter builder (spec §7 taxonomy).  In the
source these are thrown `Error`s with fixed messages; `invalidType`
carries the (upper-cased) tag interpolated into
`'Invalid query type: ' + type`. -/
inductive QErr where
  | invalidType : String → QErr
  | invalidQuery : QErr
  | invalidLiteral : QErr
  | invalidIdentifier : QErr
  | invalidBinary : QErr
  deriving DecidableEq, Repr

/-- Hexadecimal digit test (`[0-9a-fA-F]`). -/
def isHexDigitChar (c : Char) : Bool :=
  c.isDigit || ('a' ≤ c && c ≤ 'f') || ('A' ≤ c && c ≤ 'F')

/-- Exactly 24 hexadecimal characters. -/
def isHex24 (s : String) : Bool :=
  s.length == 24 && s.toList.all isHexDigitChar

/-- Modelled from the spec: `bson.parseObjectId` (lib/bson, not under
src/) — "parse as a store-specific 24-hex-character identifier; fails with
`InvalidIdentifier` if the string is not exactly 24 hex characters".  The
identifier is modelled as the validated hex string itself. -/
def parseObjectId (s : String) : Except QErr JsValue :=
  if isHex24 s then Except.ok (JsValue.vObjectId s) else Except.error QErr.invalidIdentifier

/-- The hyphen-stripping `value.replace` applied by the `U` converter. -/
def stripHyphens (s : String) : String :=
  String.mk (s.toList.filter (fun c => !(c == '-')))

/-- Modelled from the spec: the `U` converter wraps the hyphen-stripped
value as a fixed binary subtype 4 (`new mongodb.Binary(Buffer.from(...,
'hex'), 4)`); "odd-length or non-hex input fails with `InvalidBinary`". -/
def parseBinary (v : String) : Except QErr JsValue :=
  let h := stripHyphens v
  if h.length % 2 == 0 && h.toList.all isHexDigitChar
  then Except.ok (JsValue.vBinary h 4) else Except.error QErr.invalidBinary

/-- Modelled from the spec: `Number(value)` — "parse as a numeric literal;
non-numeric input yields a not-a-number sentinel" (`vNan`). -/
def jsNumber (s : String) : JsValue :=
  match s.toInt? with
  | some n => JsValue.vNum n
  | none => JsValue.vNan

/-- Model of JavaScript `String.prototype.toUpperCase` on the type tag
(character-wise ASCII upper-casing; the converter tags are ASCII). -/
def upperAscii (s : String) : String :=
  String.mk (s.toList.map Char.toUpper)

/-- The type-tag converter dispatch of `_getQuery` (app.js 162–192): the
source checks `type in converters` and dispatches on the (already
upper-cased) tag, which is equivalent to this equality chain over the six
converter keys with the unknown-tag throw as the final arm. -/
def coerceValue (ext : External) (t : String) (v : String) : Except QErr JsValue :=
  if t = "J" then
    match ext.jsonParse v with
    | some j => Except.ok j
    | none => Except.error QErr.invalidLiteral
  else if t = "N" then Except.ok (jsNumber v)
  else if t = "O" then parseObjectId v
  else if t = "R" then Except.ok (JsValue.vRegex v "i")
  else if t = "U" then parseBinary v
  else if t = "S" then Except.ok (JsValue.vStr v)
  else Except.error (QErr.invalidType t)

/-- `_getQuery` (app.js 155–207): simple key/value queries coerce the
value by the upper-cased type tag and return `{key: value}`; otherwise a
textual `query` parameter goes through the safe-expression evaluator,
whose `null` result is the `'Query entered is not valid'` throw; otherwise
the filter is the empty object. -/
def getQuery (ext : External) (req : ReqQuery) : Except QErr JsValue :=
  if req.key ≠ "" ∧ req.value ≠ "" then
    match req.type with
    | none => Except.error (QErr.invalidType "undefined")
    | some t =>
      match coerceValue ext (upperAscii t) req.value with
      | Except.ok c => Except.ok (JsValue.vObj [(req.key, c)])
      | Except.error e => Except.error e
  else if req.query ≠ "" then
    match ext.toSafeBSON req.query with
    | none => Except.error QErr.invalidQuery
    | some v => Except.ok v
  else Except.ok (JsValue.vObj [])

/-- `_getSort` (app.js 209–215): each sort entry's direction string is
parsed with `Number.parseInt(·, 10)`. -/
def getSort (ext : External) (req : ReqQuery) : List (String × JsValue) :=
  req.sort.map (fun p => (p.1, ext.parseIntDec p.2))

/-- `_getProjection` (app.js 217–223): a non-empty projection parameter
goes through the safe-expression evaluator with `|| {}` fallback. -/
def getProjection (ext : External) (req : ReqQuery) : JsValue :=
  if req.projection ≠ "" then
    match ext.toSafeBSON req.projection with
    | some v => v
    | none => JsValue.vObj []
  else JsValue.vObj []

/-- The query options assembled by `_getQueryOptions` (app.js 225–232). -/
structure QueryOptions where
  sort : List (String × JsValue)
  limit : Int
  skip : Int
  projection : JsValue

/-- `_getQueryOptions` (app.js 225–232): server-fixed page size,
`skip = Number.parseInt(req.query.skip, 10) || 0`. -/
def getQueryOptions (ext : External) (documentsPerPage : Int) (req : ReqQuery) : QueryOptions where
  sort := getSort ext req
  limit := documentsPerPage
  skip := match ext.parseIntDec req.skip with
    | JsValue.vNum n => n
    | _ => 0
  projection := getProjection ext req

/-- The `$facet.data` sub-pipeline of `_getQueryAggregate` (app.js
238–251): caller-supplied stages verbatim when `runAggregate === 'on'`
and the filter is an array; else one `$match` stage when the filter has
keys; then `$sort` and `$project` stages when non-empty. -/
def innerStages (req : ReqQuery) (query : JsValue) (opts : QueryOptions) : List JsValue :=
  (if req.runAggregate = "on" ∧ query.isArr = true then query.arrElems
   else if query.jsKeysLen > 0 then [JsValue.vObj [("$match", query)]] else [])
  ++ (if opts.sort.length > 0 then [JsValue.vObj [("$sort", JsValue.vObj opts.sort)]] else [])
  ++ (if opts.projection.jsKeysLen > 0 then [JsValue.vObj [("$project", opts.projection)]] else [])

/-- `_getQueryAggregate` (app.js 234–261): the two-stage pipeline
`[{$facet: {data: [...]}}, {$project: {'metadata.total': {$size: '$data'},
data: {$slice: ['$data', skip, limit]}}}]`. -/
def getQueryAggregate (req : ReqQuery) (query : JsValue) (opts : QueryOptions) : JsValue :=
  JsValue.vArr [
    JsValue.vObj [("$facet", JsValue.vObj [("data", JsValue.vArr (innerStages req query opts))])],
    JsValue.vObj [("$project", JsValue.vObj [
      ("metadata.total", JsValue.vObj [("$size", JsValue.vStr "$data")]),
      ("data", JsValue.vObj [("$slice",
        JsValue.vArr [JsValue.vStr "$data", JsValue.vNum opts.skip, JsValue.vNum opts.limit])])])]]

/-- The argument of the single store access of `viewCollection` (app.js
264–277): options and filter are built first (synchronously, no store
access), and a filter-builder failure throws before
`req.collection.aggregate(query)` is reached — an `error` result here
means no store call occurs for the request. -/
def viewCollectionStoreCall (ext : External) (documentsPerPage : Int) (req : ReqQuery) :
    Except QErr JsValue :=
  let opts := getQueryOptions ext documentsPerPage req
  match getQuery ext req with
  | Except.ok q => Except.ok (getQueryAggregate req q opts)
  | Except.error e => Except.error e

/-! ## Store-side semantics

The document store (`store.aggregate` / `store.find`) is an external
collaborator (spec §1 and §6); its execution of the assembled plan is
modelled from the spec: a `$match` stage keeps matching documents (the
empty filter matches everything, simple fields match by equality); a
`$sort` stage reorders (any fixed total order — no claim depends on the
exact sort order beyond "empty sort preserves store-native order"); a
`$project` stage reshapes each document; the final count+slice stage
computes the total and the window `[skip, skip+limit)` from one pass over
the same filtered/sorted/projected list. -/

/-- Modelled from the spec: store-side filter matching.  The empty filter
matches everything; a simple filter object matches by field equality
(compared on the serialized form); operator expressions beyond equality
are not exercised by any claim. -/
def matchesFilter (q : JsValue) (d : Doc) : Bool :=
  match q with
  | JsValue.vObj fs => fs.all (fun p => (lookupField d p.1).toJson == p.2.toJson)
  | _ => false

/-- A serialization-based sort key for a sort specification (modelled:
the store's exact BSON ordering is external). -/
def sortKeyStr (s : List (String × JsValue)) (d : Doc) : String :=
  String.join (s.map (fun p => (lookupField d p.1).toJson))

/-- Insert into a sorted list (stable insertion sort step). -/
def insertSorted (le : Doc → Doc → Bool) (d : Doc) : List Doc → List Doc
  | [] => [d]
  | e :: es => if le d e then d :: e :: es else e :: insertSorted le d es

/-- Modelled from the spec: the store's `$sort`.  An empty specification
leaves store-native order untouched; a non-empty one sorts by a fixed
total order on the sort key. -/
def sortDocs (s : List (String × JsValue)) (ds : List Doc) : List Doc :=
  if s.isEmpty then ds
  else ds.foldr (insertSorted (fun d1 d2 => sortKeyStr s d1 ≤ sortKeyStr s d2)) []

/-- Modelled from the spec: the store's `$project` with an
inclusion-style projection (keep `_id` and the listed fields). -/
def projectDoc (p : List (String × JsValue)) (d : Doc) : Doc :=
  d.filter (fun f => f.1 == "_id" || p.any (fun q => q.1 == f.1))

/-- Modelled from the spec: one aggregation stage.  Caller-authored raw
stages other than `$match`/`$sort`/`$project` are executed by the store;
their effect is outside every claim and modelled as the identity. -/
def interpStage (st : JsValue) (ds : List Doc) : List Doc :=
  match st with
  | JsValue.vObj [("$match", q)] => ds.filter (fun d => matchesFilter q d)
  | JsValue.vObj [("$sort", JsValue.vObj s)] => sortDocs s ds
  | JsValue.vObj [("$project", JsValue.vObj p)] => ds.map (projectDoc p)
  | _ => ds

/-- Run a stage list left to right. -/
def runStages (sts : List JsValue) (ds : List Doc) : List Doc :=
  sts.foldl (fun a st => interpStage st a) ds

/-- The store's answer to the assembled plan: total matching count and
the returned page. -/
structure AggOut where
  total : Nat
  data : List Doc

/-- Modelled from the spec / MongoDB `$slice` with three arguments: for a
non-negative position, up to `lim` elements from index `sk`; a negative
position counts from the end. -/
def sliceList (xs : List Doc) (sk lim : Int) : List Doc :=
  if 0 ≤ sk then (xs.drop sk.toNat).take lim.toNat
  else (xs.drop (xs.length - min xs.length sk.natAbs)).take lim.toNat

/-- Modelled from the spec: `store.aggregate` on a plan of the exact shape
`_getQueryAggregate` produces — run the `$facet.data` sub-pipeline once,
then report its length as `metadata.total` and its `$slice` as `data`,
both computed from the same list.  Any other plan shape is store
territory (`none`). -/
def evalAggPlan (plan : JsValue) (ds : List Doc) : Option AggOut :=
  match plan with
  | JsValue.vArr [JsValue.vObj [("$facet", JsValue.vObj [("data", JsValue.vArr inner)])],
      JsValue.vObj [("$project", JsValue.vObj [
        ("metadata.total", JsValue.vObj [("$size", JsValue.vStr "$data")]),
        ("data", JsValue.vObj [("$slice",
          JsValue.vArr [JsValue.vStr "$data", JsValue.vNum sk, JsValue.vNum lim])])])]] =>
    let l := runStages inner ds
    some ⟨l.length, sliceList l sk lim⟩
  | _ => none

/-! ## Pagination Calculator (`viewCollection`, app.js lines 291–311)

The source computes, with JavaScript `Math.round` / `Math.ceil`:

  prev  = { page: Math.round((skip - limit) / limit) + 1, skip: skip - limit }
  prev2 = { page: Math.round((skip - limit * 2) / limit) + 1, skip: skip - limit * 2 }
  next2 = { page: Math.round((skip + limit * 2) / limit) + 1, skip: skip + limit * 2 }
  next  = { page: Math.round((skip + limit) / limit) + 1, skip: skip + limit }
  here  = Math.round(skip / limit) + 1
  last  = (Math.ceil(count / limit) - 1) * limit
  pagination = count > limit
-/

/-- `Math.round (a / b)` for integers `a` and positive `b`:
`Math.round x = ⌊x + 1/2⌋` (ties toward +∞), so
`Math.round (a/b) = ⌊(2a + b) / (2b)⌋`. -/
def jsRound (a b : Int) : Int := Int.fdiv (2 * a + b) (2 * b)

/-- `Math.ceil (a / b)` for integers `a` and positive `b`:
`⌈a/b⌉ = ⌊(a + b - 1) / b⌋`. -/
def jsCeilDiv (a b : Int) : Int := Int.fdiv (a + b - 1) b

/-- A pagination window: 1-based page number and skip offset. -/
structure PageWindow where
  page : Int
  skip : Int
  deriving DecidableEq, Repr

/-- The pagination context computed by `viewCollection`. -/
structure Pagination where
  prev : PageWindow
  prev2 : PageWindow
  next2 : PageWindow
  next : PageWindow
  here : Int
  last : Int
  pagination : Bool
  deriving DecidableEq, Repr

/-- The pagination calculation of `viewCollection` (app.js 291–311,
identically src/unnamed/part_000 69–88 with `stats.count` for `count`). -/
def paginate (skip limit count : Int) : Pagination where
  prev := ⟨jsRound (skip - limit) limit + 1, skip - limit⟩
  prev2 := ⟨jsRound (skip - limit * 2) limit + 1, skip - limit * 2⟩
  next2 := ⟨jsRound (skip + limit * 2) limit + 1, skip + limit * 2⟩
  next := ⟨jsRound (skip + limit) limit + 1, skip + limit⟩
  here := jsRound skip limit + 1
  last := (jsCeilDiv count limit - 1) * limit
  pagination := count > limit

/-! ## Oversized-Payload Redactor (`viewCollection`, app.js lines 316–347)

Two passes over each returned document.  Field pass: any property whose
`utils.roughSizeOfObject` exceeds `config.options.maxPropSize` is replaced
by a `*** LARGE PROPERTY ***` stub.  Row pass: if the whole document still
exceeds `config.options.maxRowSize`, every property other than `_id` whose
size exceeds the fixed floor 200 is replaced by a `*** LARGE ROW ***`
stub.  The size estimator `utils.roughSizeOfObject` and the formatter
`utils.bytesToSize` live in lib/utils (not under src/) and are passed in
as parameters (spec §6: `estimateByteSize`, `humanReadableSize`). -/

/-- The redactor's external dependencies and configured thresholds:
`sz` models `utils.roughSizeOfObject` (spec §6 `estimateByteSize`), `bts`
models `utils.bytesToSize` (spec §6 `humanReadableSize`), and the two
configurable thresholds. -/
structure RedactCfg where
  sz : JsValue → Nat
  bts : Nat → String
  maxPropSize : Nat
  maxRowSize : Nat

/-- The redaction stub object built at app.js 320–328 / 336–344: in source
field order `attribu`, `display`, `humanSz`, `maxSize`, `preview`
(`JSON.stringify(value).slice(0, 25)`), `roughSz`, `_id` (the document's
current `_id` property at the time of replacement). -/
def mkStub (cfg : RedactCfg) (display : String) (threshold : Nat)
    (prop : String) (v : JsValue) (idv : JsValue) : JsValue :=
  JsValue.vObj [
    ("attribu", JsValue.vStr prop),
    ("display", JsValue.vStr display),
    ("humanSz", JsValue.vStr (cfg.bts (cfg.sz v))),
    ("maxSize", JsValue.vStr (cfg.bts threshold)),
    ("preview", JsValue.vStr (JsValue.sliceStr v.toJson 25)),
    ("roughSz", JsValue.vNum (cfg.sz v)),
    ("_id", idv)]

/-- One iteration of the field-pass loop at property `k` (app.js 318–330):
replace the current value when its estimated size exceeds
`maxPropSize`. -/
def fieldVisit (cfg : RedactCfg) (d : Doc) (k : String) : Doc :=
  if cfg.sz (lookupField d k) > cfg.maxPropSize then
    setField d k
      (mkStub cfg "*** LARGE PROPERTY ***" cfg.maxPropSize k (lookupField d k) (lookupField d "_id"))
  else d

/-- The field-level pass (app.js 318–330): visit every property of the
document in insertion order, threading the partially-redacted document
(the source mutates `items[i]` in place while iterating). -/
def fieldPass (cfg : RedactCfg) (d : Doc) : Doc :=
  (keysOf d).foldl (fieldVisit cfg) d

/-- One iteration of the row-pass loop at property `k` (app.js 334–346):
replace when the property is not `_id` and its estimated size exceeds the
fixed floor 200. -/
def rowVisit (cfg : RedactCfg) (d : Doc) (k : String) : Doc :=
  if k ≠ "_id" ∧ cfg.sz (lookupField d k) > 200 then
    setField d k
      (mkStub cfg "*** LARGE ROW ***" cfg.maxRowSize k (lookupField d k) (lookupField d "_id"))
  else d

/-- The document-level pass (app.js 332–347): runs only when the document
still exceeds `maxRowSize` after the field pass. -/
def rowPass (cfg : RedactCfg) (d : Doc) : Doc :=
  if cfg.sz (JsValue.vObj d) > cfg.maxRowSize then (keysOf d).foldl (rowVisit cfg) d
  else d

/-- The whole Oversized-Payload Redactor applied to one returned document:
field pass then document-level pass (app.js 316–347). -/
def redactDoc (cfg : RedactCfg) (d : Doc) : Doc :=
  rowPass cfg (fieldPass cfg d)

/-- Modelled from the spec (§6 `estimateByteSize`): a concrete instance of
the size estimator — the length of the serialized form — used to
instantiate counterexamples and witnesses.  `utils.roughSizeOfObject`
itself is not under src/. -/
def jsonSz (v : JsValue) : Nat := v.toJson.length

/-- A concrete `RedactCfg` instance over `jsonSz` with the given
thresholds; the human-readable formatter is a plain byte count. -/
def sampleCfg (maxProp maxRow : Nat) : RedactCfg where
  sz := jsonSz
  bts := fun n => toString n ++ " Bytes"
  maxPropSize := maxProp
  maxRowSize := maxRow

/-! ## Export (`exportCollection` / `exportColArray` / `exportCsv`,
app.js lines 410–472) -/

/-- The options object `{ sort: exp._getSort(req) }` passed to
`store.find` by all three export handlers: it carries the rebuilt sort
and — unlike the view path — no skip and no limit keys at all. -/
structure FindOptions where
  sort : List (String × JsValue)
  skip : Option Int
  limit : Option Int

/-- The single store access made by each export handler (app.js 410–430,
432–451, 453–472): `req.collection.find(query, queryOptions)` with the
filter rebuilt by `_getQuery` and options `{ sort: _getSort(req) }`.  An
`error` means the handler's catch runs and no export is produced. -/
def exportFindCall (ext : External) (req : ReqQuery) : Except QErr (JsValue × FindOptions) :=
  match getQuery ext req with
  | Except.ok q => Except.ok (q, ⟨getSort ext req, none, none⟩)
  | Except.error e => Except.error e

/-- Modelled from the spec (§6 `store.find`): the store returns the
matching documents, reordered only by a non-empty sort, with no skip or
limit applied when the options carry none — and the export path never
carries any. -/
def findSem (store : List Doc) (q : JsValue) (opts : FindOptions) : List Doc :=
  let m := store.filter (fun d => matchesFilter q d)
  let s := sortDocs opts.sort m
  let s := match opts.skip with
    | some sk => s.drop sk.toNat
    | none => s
  match opts.limit with
  | some l => s.take l.toNat
  | none => s

/-- The line-delimited JSON serialization of `exportCollection` (app.js
420–424): each document rendered by `bson.toJsonString` (modelled by
`toJson`) with a line terminator appended in the stream transform. -/
def exportNdjson (eol : String) (ds : List Doc) : String :=
  String.join (ds.map (fun d => (JsValue.vObj d).toJson ++ eol))

/-- A concrete `External` instance used to instantiate witnesses and
counterexamples: the evaluator rejects the text `"bad"` and parses
anything else as the object `(age: 30)`; `JSON.parse` and
`Number.parseInt` are given simple concrete behaviours. -/
def extSample : External where
  jsonParse := fun s => if s = "30" then some (JsValue.vNum 30) else none
  toSafeBSON := fun s => if s = "bad" then none else some (JsValue.vObj [("age", JsValue.vNum 30)])
  parseIntDec := fun s => jsNumber s

/-- A two-field document used to instantiate redaction counterexamples
and witnesses. -/
def cexDoc : Doc := [("_id", JsValue.vNum 1), ("a", JsValue.vStr "hello")]

/-- A degenerate redaction configuration whose size estimate is constant
zero (so no value ever exceeds a threshold); used to exhibit a
satisfiable instance of the conditional-idempotence hypotheses. -/
def zeroSizeCfg : RedactCfg where
  sz := fun _ => 0
  bts := fun n => toString n
  maxPropSize := 0
  maxRowSize := 0

/-! ## Theorems -/

/-- Helper: `setField` does not change the key list. -/
theorem keysOf_setField (d : Doc) (k : String) (v : JsValue) :
    keysOf (setField d k v) = keysOf d := by
  unfold keysOf setField
  rw [List.map_map]
  apply List.map_congr_left
  intro p _
  by_cases h : p.1 = k <;> simp [h]

/-- Helper: with distinct keys, `find?` locates exactly the member. -/
theorem find?_eq_of_mem_nodup : ∀ {d : Doc} {k : String} {v : JsValue},
    (keysOf d).Nodup → (k, v) ∈ d → d.find? (fun p => p.1 == k) = some (k, v) := by
  intro d
  induction d with
  | nil => intro k v _ h; cases h
  | cons p d ih =>
    intro k v hnd hmem
    have hnd' := List.nodup_cons.mp hnd
    rcases List.mem_cons.mp hmem with h | h
    · rw [← h]
      exact List.find?_cons_of_pos _ (by simp)
    · have hb : (p.1 == k) = false := by
        rw [beq_eq_false_iff_ne]
        intro he
        exact hnd'.1 (he ▸ List.mem_map_of_mem Prod.fst h)
      show List.find? (fun q : String × JsValue => q.1 == k) (p :: d) = some (k, v)
      simp only [List.find?, hb]
      exact ih hnd'.2 h

/-- Helper: with distinct keys, `lookupField` reads the member's value. -/
theorem lookupField_of_mem_nodup {d : Doc} {k : String} {v : JsValue}
    (hnd : (keysOf d).Nodup) (hmem : (k, v) ∈ d) : lookupField d k = v := by
  unfold lookupField
  rw [find?_eq_of_mem_nodup hnd hmem]

/-- Helper: reading through a key-preserving value map. -/
theorem lookupField_map_keyfix (f : String × JsValue → JsValue) (d : Doc) (k : String) :
    lookupField (d.map (fun p => (p.1, f p))) k
      = (match d.find? (fun p => p.1 == k) with
        | some p => f p
        | none => JsValue.vUndef) := by
  unfold lookupField
  rw [List.find?_map]
  have hcomp : ((fun q : String × JsValue => q.1 == k) ∘ fun p : String × JsValue => (p.1, f p))
      = fun p : String × JsValue => p.1 == k := rfl
  rw [hcomp]
  rcases d.find? (fun p : String × JsValue => p.1 == k) with _ | p <;> rfl

/-- Helper: a conditional-replacement rule in key-preserving form. -/
theorem rule_eq_pairform (C : String × JsValue → Prop) [DecidablePred C]
    (g : String × JsValue → JsValue) :
    (fun p : String × JsValue => if C p then (p.1, g p) else p)
      = fun p : String × JsValue => (p.1, if C p then g p else p.2) := by
  funext p
  by_cases h : C p <;> simp [h]

/-- Helper: reading a field after a conditional-replacement map. -/
theorem lookupField_map_ite (C : String × JsValue → Prop) [DecidablePred C]
    (g : String × JsValue → JsValue) {d : Doc} {k : String} {v : JsValue}
    (hnd : (keysOf d).Nodup) (hmem : (k, v) ∈ d) :
    lookupField (d.map (fun p => if C p then (p.1, g p) else p)) k
      = if C (k, v) then g (k, v) else v := by
  rw [rule_eq_pairform C g, lookupField_map_keyfix, find?_eq_of_mem_nodup hnd hmem]

/-- Helper: `setField` at key `k` does not change reads at other keys. -/
theorem lookupField_setField_ne {d : Doc} {k k2 : String} {v : JsValue} (h : k2 ≠ k) :
    lookupField (setField d k v) k2 = lookupField d k2 := by
  unfold lookupField setField
  rw [List.find?_map]
  have hcomp : ((fun q : String × JsValue => q.1 == k2)
        ∘ fun p : String × JsValue => if p.1 = k then (k, v) else p)
      = fun p : String × JsValue => p.1 == k2 := by
    funext p
    by_cases hp : p.1 = k
    · simp only [Function.comp_apply, if_pos hp]
      rw [hp]
    · simp [hp]
  rw [hcomp]
  rcases hf : d.find? (fun p : String × JsValue => p.1 == k2) with _ | p
  · rfl
  · have hp2 : p.1 = k2 := by simpa using List.find?_some hf
    have : (if p.1 = k then (k, v) else p) = p := if_neg (fun he => h (hp2 ▸ he))
    simp [this]

/-- Helper: the threaded replace-oversized-fields fold over the key list
equals a single conditional-replacement map over the document, provided
the keys are distinct and the `_id` value (read by every stub) is itself
never replaced. -/
theorem foldPass_eq_map (cond : String → JsValue → Bool)
    (stubf : String → JsValue → JsValue → JsValue) :
    ∀ (ks : List String) (d : Doc), (keysOf d).Nodup → ks.Nodup →
      ("_id" ∈ ks → cond "_id" (lookupField d "_id") = false) →
      ks.foldl (fun d k => if cond k (lookupField d k) = true
          then setField d k (stubf k (lookupField d k) (lookupField d "_id")) else d) d
        = d.map (fun p => if p.1 ∈ ks ∧ cond p.1 p.2 = true
            then (p.1, stubf p.1 p.2 (lookupField d "_id")) else p) := by
  intro ks
  induction ks with
  | nil =>
    intro d _ _ _
    simp
  | cons k ks ih =>
    intro d hnd hknd hid
    have hknd' := List.nodup_cons.mp hknd
    rw [List.foldl_cons]
    by_cases hc : cond k (lookupField d k) = true
    · have hkid : k ≠ "_id" := by
        intro he
        have hmemid : "_id" ∈ k :: ks := by rw [← he]; exact List.mem_cons_self k ks
        rw [he] at hc
        rw [hid hmemid] at hc
        cases hc
      rw [if_pos hc]
      have hkeys : keysOf (setField d k (stubf k (lookupField d k) (lookupField d "_id")))
          = keysOf d := keysOf_setField d k _
      have hlid : lookupField (setField d k (stubf k (lookupField d k) (lookupField d "_id"))) "_id"
          = lookupField d "_id" := lookupField_setField_ne (fun he => hkid he.symm)
      rw [ih (setField d k (stubf k (lookupField d k) (lookupField d "_id")))
        (hkeys ▸ hnd) hknd'.2
        (fun hm => by rw [hlid]; exact hid (List.mem_cons_of_mem _ hm)), hlid]
      unfold setField
      rw [List.map_map]
      apply List.map_congr_left
      intro p hp
      simp only [Function.comp_apply]
      by_cases hpk : p.1 = k
      · have hvv : lookupField d k = p.2 :=
          lookupField_of_mem_nodup hnd (by rw [← hpk]; simpa using hp)
        rw [if_pos hpk]
        rw [if_neg (fun hcon => hknd'.1 hcon.1)]
        rw [if_pos ⟨by rw [hpk]; exact List.mem_cons_self _ _, by rw [hpk, ← hvv]; exact hc⟩]
        rw [hpk, ← hvv]
      · rw [if_neg hpk]
        by_cases hmem2 : p.1 ∈ ks
        · have hmem3 : p.1 ∈ k :: ks := List.mem_cons_of_mem _ hmem2
          by_cases hcp : cond p.1 p.2 = true
          · rw [if_pos ⟨hmem2, hcp⟩, if_pos ⟨hmem3, hcp⟩]
          · rw [if_neg (fun hcon => hcp hcon.2), if_neg (fun hcon => hcp hcon.2)]
        · have hmem3 : p.1 ∉ k :: ks := by simp [hpk, hmem2]
          rw [if_neg (fun hcon => hmem2 hcon.1), if_neg (fun hcon => hmem3 hcon.1)]
    · rw [if_neg hc]
      rw [ih d hnd hknd'.2 (fun hm => hid (List.mem_cons_of_mem _ hm))]
      apply List.map_congr_left
      intro p hp
      by_cases hpk : p.1 = k
      · have hvv : lookupField d k = p.2 :=
          lookupField_of_mem_nodup hnd (by rw [← hpk]; simpa using hp)
        have h1 : ¬(p.1 ∈ ks ∧ cond p.1 p.2 = true) := fun hcon => hknd'.1 (hpk ▸ hcon.1)
        have h2 : ¬(p.1 ∈ k :: ks ∧ cond p.1 p.2 = true) := by
          intro hcon
          apply hc
          rw [hvv, ← hpk]
          exact hcon.2
        rw [if_neg h1, if_neg h2]
      · by_cases hmem2 : p.1 ∈ ks
        · have hmem3 : p.1 ∈ k :: ks := List.mem_cons_of_mem _ hmem2
          by_cases hcp : cond p.1 p.2 = true
          · rw [if_pos ⟨hmem2, hcp⟩, if_pos ⟨hmem3, hcp⟩]
          · rw [if_neg (fun hcon => hcp hcon.2), if_neg (fun hcon => hcp hcon.2)]
        · have hmem3 : p.1 ∉ k :: ks := by simp [hpk, hmem2]
          rw [if_neg (fun hcon => hmem2 hcon.1), if_neg (fun hcon => hmem3 hcon.1)]

/-- Helper: with distinct keys and an `_id` value below the per-field
threshold, the field-level pass is one conditional-replacement map. -/
theorem fieldPass_eq_map (cfg : RedactCfg) (d : Doc)
    (hnd : (keysOf d).Nodup)
    (hid : "_id" ∈ keysOf d → ¬cfg.sz (lookupField d "_id") > cfg.maxPropSize) :
    fieldPass cfg d = d.map (fun p => if cfg.sz p.2 > cfg.maxPropSize
        then (p.1, mkStub cfg "*** LARGE PROPERTY ***" cfg.maxPropSize p.1 p.2
          (lookupField d "_id"))
        else p) := by
  unfold fieldPass
  have hfv : fieldVisit cfg = fun d k =>
      if (fun (_ : String) v => decide (cfg.sz v > cfg.maxPropSize)) k (lookupField d k) = true
      then setField d k ((fun k v i => mkStub cfg "*** LARGE PROPERTY ***" cfg.maxPropSize k v i)
        k (lookupField d k) (lookupField d "_id"))
      else d := by
    funext d k
    unfold fieldVisit
    by_cases h : cfg.sz (lookupField d k) > cfg.maxPropSize <;> simp [h]
  rw [hfv]
  refine (foldPass_eq_map (fun _ v => decide (cfg.sz v > cfg.maxPropSize))
      (fun k v i => mkStub cfg "*** LARGE PROPERTY ***" cfg.maxPropSize k v i)
      (keysOf d) d hnd hnd (fun hm => by simpa using hid hm)).trans ?_
  apply List.map_congr_left
  intro p hp
  have hmem : p.1 ∈ keysOf d := List.mem_map_of_mem Prod.fst hp
  by_cases h : cfg.sz p.2 > cfg.maxPropSize
  · rw [if_pos ⟨hmem, by simpa using h⟩, if_pos h]
  · rw [if_neg (fun hcon => h (by simpa using hcon.2)), if_neg h]

/-- Helper: with distinct keys, the triggered document-level pass is one
conditional-replacement map (skipping `_id` and the 200-byte floor). -/
theorem rowPass_eq_map (cfg : RedactCfg) (d : Doc)
    (hnd : (keysOf d).Nodup) (hbig : cfg.sz (JsValue.vObj d) > cfg.maxRowSize) :
    rowPass cfg d = d.map (fun p => if p.1 ≠ "_id" ∧ cfg.sz p.2 > 200
        then (p.1, mkStub cfg "*** LARGE ROW ***" cfg.maxRowSize p.1 p.2 (lookupField d "_id"))
        else p) := by
  unfold rowPass
  rw [if_pos hbig]
  have hrv : rowVisit cfg = fun d k =>
      if (fun k v => decide (k ≠ "_id" ∧ cfg.sz v > 200)) k (lookupField d k) = true
      then setField d k ((fun k v i => mkStub cfg "*** LARGE ROW ***" cfg.maxRowSize k v i)
        k (lookupField d k) (lookupField d "_id"))
      else d := by
    funext d k
    unfold rowVisit
    by_cases h : k ≠ "_id" ∧ cfg.sz (lookupField d k) > 200 <;> simp [h]
  rw [hrv]
  refine (foldPass_eq_map (fun k v => decide (k ≠ "_id" ∧ cfg.sz v > 200))
      (fun k v i => mkStub cfg "*** LARGE ROW ***" cfg.maxRowSize k v i)
      (keysOf d) d hnd hnd (fun _ => by simp)).trans ?_
  apply List.map_congr_left
  intro p hp
  have hmem : p.1 ∈ keysOf d := List.mem_map_of_mem Prod.fst hp
  by_cases h : p.1 ≠ "_id" ∧ cfg.sz p.2 > 200
  · rw [if_pos ⟨hmem, by simpa using h⟩, if_pos h]
  · rw [if_neg (fun hcon => h (by simpa using hcon.2)), if_neg h]

/-- Helper: a conditional-replacement map leaves a read unchanged when
the condition fails at the read value. -/
theorem lookupField_map_ite_keep (C : String × JsValue → Prop) [DecidablePred C]
    (g : String × JsValue → JsValue) (d : Doc) (k : String)
    (h : ¬C (k, lookupField d k)) :
    lookupField (d.map (fun p => if C p then (p.1, g p) else p)) k = lookupField d k := by
  rw [rule_eq_pairform C g, lookupField_map_keyfix]
  rcases hf : d.find? (fun q : String × JsValue => q.1 == k) with _ | p
  · unfold lookupField
    rw [hf]
  · have hk : p.1 = k := by simpa using List.find?_some hf
    have hv : lookupField d k = p.2 := by unfold lookupField; rw [hf]
    have hpe : ((k, lookupField d k) : String × JsValue) = p := by
      rw [hv, ← hk]
    show (if C p then g p else p.2) = lookupField d k
    rw [if_neg (hpe ▸ h)]
    exact hv.symm

/-- Helper: a key-preserving map leaves the key list unchanged. -/
theorem keysOf_map_keep (f : String × JsValue → String × JsValue) (d : Doc)
    (h : ∀ p, (f p).1 = p.1) : keysOf (d.map f) = keysOf d := by
  unfold keysOf
  rw [List.map_map]
  apply List.map_congr_left
  intro p _
  exact h p

/-- Helper: a document none of whose field values exceeds the per-field
threshold passes through the field-level pass unchanged. -/
theorem fieldPass_id_of_small (cfg : RedactCfg) (d : Doc)
    (hnd : (keysOf d).Nodup)
    (hall : ∀ p ∈ d, ¬cfg.sz p.2 > cfg.maxPropSize) : fieldPass cfg d = d := by
  have hid' : "_id" ∈ keysOf d → ¬cfg.sz (lookupField d "_id") > cfg.maxPropSize := by
    intro hm
    rcases List.mem_map.mp hm with ⟨p, hp, hpk⟩
    have hpe : ((("_id" : String), p.2) : String × JsValue) = p := by
      rw [← hpk]
    rw [lookupField_of_mem_nodup hnd (hpe.symm ▸ hp)]
    exact hall p hp
  rw [fieldPass_eq_map cfg d hnd hid']
  have hkeep : ∀ p ∈ d, (if cfg.sz p.2 > cfg.maxPropSize
      then (p.1, mkStub cfg "*** LARGE PROPERTY ***" cfg.maxPropSize p.1 p.2
        (lookupField d "_id"))
      else p) = p := fun p hp => if_neg (hall p hp)
  exact (List.map_congr_left hkeep).trans (List.map_id d)

/-- Helper: a document none of whose non-`_id` field values exceeds the
200-byte floor passes through the document-level pass unchanged. -/
theorem rowPass_id_of_small_fields (cfg : RedactCfg) (d : Doc)
    (hnd : (keysOf d).Nodup)
    (hall : ∀ p ∈ d, p.1 ≠ "_id" → ¬cfg.sz p.2 > 200) : rowPass cfg d = d := by
  by_cases hbig : cfg.sz (JsValue.vObj d) > cfg.maxRowSize
  · rw [rowPass_eq_map cfg d hnd hbig]
    have hkeep : ∀ p ∈ d, (if p.1 ≠ "_id" ∧ cfg.sz p.2 > 200
        then (p.1, mkStub cfg "*** LARGE ROW ***" cfg.maxRowSize p.1 p.2 (lookupField d "_id"))
        else p) = p := fun p hp => if_neg (fun hcon => hall p hp hcon.1 hcon.2)
    exact (List.map_congr_left hkeep).trans (List.map_id d)
  · unfold rowPass
    exact if_neg hbig

/-- Helper: the field-level pass never changes the key list, whatever
key order it visits. -/
theorem keysOf_fieldFold (cfg : RedactCfg) :
    ∀ (ks : List String) (d : Doc), keysOf (ks.foldl (fieldVisit cfg) d) = keysOf d := by
  intro ks
  induction ks with
  | nil => intro d; rfl
  | cons k ks ih =>
    intro d
    rw [List.foldl_cons, ih]
    unfold fieldVisit
    by_cases hc : cfg.sz (lookupField d k) > cfg.maxPropSize
    · rw [if_pos hc, keysOf_setField]
    · rw [if_neg hc]

/-- Helper: the field-level pass never changes the key list. -/
theorem keysOf_fieldPass (cfg : RedactCfg) (d : Doc) :
    keysOf (fieldPass cfg d) = keysOf d := keysOf_fieldFold cfg (keysOf d) d

/-- Helper: when every stub is at most the per-field threshold, every
field of the fold's result is at most the per-field threshold — with no
assumption on the `_id` value: a replaced `_id` is itself a stub and
hence small.  The entries whose keys are not visited must already be
small (vacuous when the fold visits every key). -/
theorem fieldFold_all_le (cfg : RedactCfg)
    (hstub : ∀ display thr k v i,
      cfg.sz (mkStub cfg display thr k v i) ≤ cfg.maxPropSize) :
    ∀ (ks : List String) (d : Doc), (keysOf d).Nodup → ks.Nodup →
      (∀ p ∈ d, p.1 ∉ ks → cfg.sz p.2 ≤ cfg.maxPropSize) →
      ∀ p ∈ ks.foldl (fieldVisit cfg) d, cfg.sz p.2 ≤ cfg.maxPropSize := by
  intro ks
  induction ks with
  | nil =>
    intro d _ _ hsmall p hp
    exact hsmall p hp (List.not_mem_nil _)
  | cons k ks ih =>
    intro d hnd hknd hsmall
    have hknd' := List.nodup_cons.mp hknd
    rw [List.foldl_cons]
    by_cases hc : cfg.sz (lookupField d k) > cfg.maxPropSize
    · have hv : fieldVisit cfg d k = setField d k (mkStub cfg "*** LARGE PROPERTY ***"
          cfg.maxPropSize k (lookupField d k) (lookupField d "_id")) := by
        unfold fieldVisit
        rw [if_pos hc]
      rw [hv]
      apply ih
      · rw [keysOf_setField]
        exact hnd
      · exact hknd'.2
      · intro p hp hpk
        rcases List.mem_map.mp hp with ⟨q, hq, hpq⟩
        subst hpq
        by_cases hqk : q.1 = k
        · rw [if_pos hqk]
          exact hstub _ _ _ _ _
        · rw [if_neg hqk]
          rw [if_neg hqk] at hpk
          refine hsmall q hq ?_
          intro hqin
          rcases List.mem_cons.mp hqin with h | h
          · exact hqk h
          · exact hpk h
    · have hv : fieldVisit cfg d k = d := by
        unfold fieldVisit
        rw [if_neg hc]
      rw [hv]
      apply ih d hnd hknd'.2
      intro p hp hpk
      by_cases hpkk : p.1 = k
      · have hlk : lookupField d k = p.2 :=
          lookupField_of_mem_nodup hnd (by rw [← hpkk]; simpa using hp)
        rw [← hlk]
        exact Nat.not_lt.mp hc
      · refine hsmall p hp ?_
        intro hin
        rcases List.mem_cons.mp hin with h | h
        · exact hpkk h
        · exact hpk h

/-- Helper: a 25-character slice is never longer than 25. -/
theorem sliceStr_length_le (s : String) (n : Nat) : (JsValue.sliceStr s n).length ≤ n := by
  unfold JsValue.sliceStr
  show (s.toList.take n).length ≤ n
  simp [List.length_take]

/-- Helper: the slice is an initial segment of the serialized form. -/
theorem sliceStr_append_drop (s : String) (n : Nat) :
    JsValue.sliceStr s n ++ String.mk (s.toList.drop n) = s := by
  unfold JsValue.sliceStr
  have happ : String.mk (s.toList.take n) ++ String.mk (s.toList.drop n)
      = String.mk (s.toList.take n ++ s.toList.drop n) := rfl
  rw [happ, List.take_append_drop]
  rcases s with ⟨l⟩
  rfl

/-- Helper: a document at or below the row threshold skips the
document-level pass. -/
theorem rowPass_of_small (cfg : RedactCfg) (d : Doc)
    (h : ¬cfg.sz (JsValue.vObj d) > cfg.maxRowSize) : rowPass cfg d = d := by
  unfold rowPass
  exact if_neg h

/-- Helper: on the simple key/value branch, `_getQuery` upper-cases the
tag and dispatches it to the converters, wrapping the coerced value into
a single-field equality filter. -/
theorem getQuery_keyvalue (ext : External) (req : ReqQuery) (t : String)
    (hk : req.key ≠ "") (hv : req.value ≠ "") (ht : req.type = some t) :
    getQuery ext req
      = match coerceValue ext (upperAscii t) req.value with
        | Except.ok c => Except.ok (JsValue.vObj [(req.key, c)])
        | Except.error e => Except.error e := by
  unfold getQuery
  rw [if_pos ⟨hk, hv⟩, ht]

/-- Helper: the converter dispatch produces an invalid-type error exactly
for tags outside the six converter keys. -/
theorem coerce_invalidType_iff (ext : External) (t v : String) :
    (∃ u, coerceValue ext t v = Except.error (QErr.invalidType u))
      ↔ t ∉ (["J", "N", "O", "R", "U", "S"] : List String) := by
  unfold coerceValue
  by_cases h1 : t = "J"
  · subst h1
    rcases ext.jsonParse v with _ | j <;> simp
  by_cases h2 : t = "N"
  · subst h2; simp
  by_cases h3 : t = "O"
  · subst h3
    unfold parseObjectId
    by_cases ho : isHex24 v = true <;> simp [ho]
  by_cases h4 : t = "R"
  · subst h4; simp
  by_cases h5 : t = "U"
  · subst h5
    by_cases hb : (stripHyphens v).length % 2 = 0 ∧ ∀ x ∈ (stripHyphens v).data, isHexDigitChar x = true
    · simp [parseBinary, hb]
      intro x
      rw [if_pos hb.2]
      simp
    · simp [parseBinary, hb]
  by_cases h6 : t = "S"
  · subst h6; simp
  · simp [h1, h2, h3, h4, h5, h6]

/-- Claim C3: on the textual-query path (no simple key/value pair, a
non-empty `query` parameter), a `null` result of the safe-expression
evaluator makes the filter builder fail with the invalid-query error and
the collection view's single store access never happens; a non-null
structured result is used verbatim as the filter. -/
theorem C3_textual_query_path (ext : External) (dpp : Int) (req : ReqQuery)
    (hkv : req.key = "" ∨ req.value = "") (hq : req.query ≠ "") :
    (ext.toSafeBSON req.query = none →
      getQuery ext req = Except.error QErr.invalidQuery ∧
      viewCollectionStoreCall ext dpp req = Except.error QErr.invalidQuery) ∧
    (∀ v, ext.toSafeBSON req.query = some v → getQuery ext req = Except.ok v) := by
  have hnot : ¬(req.key ≠ "" ∧ req.value ≠ "") := by
    rcases hkv with h | h <;> simp [h]
  have hbr : getQuery ext req
      = (match ext.toSafeBSON req.query with
         | none => Except.error QErr.invalidQuery
         | some v => Except.ok v) := by
    unfold getQuery
    rw [if_neg hnot, if_pos hq]
  constructor
  · intro hn
    have hg : getQuery ext req = Except.error QErr.invalidQuery := by rw [hbr, hn]
    refine ⟨hg, ?_⟩
    unfold viewCollectionStoreCall
    rw [hg]
  · intro v hv
    rw [hbr, hv]

/-- Witness for C3 at the request whose `query` text is `"bad"`, which
`extSample`'s evaluator rejects. -/
theorem C3_textual_query_path_witness :
    (extSample.toSafeBSON "bad" = none →
      getQuery extSample ⟨"", "", none, "bad", [], "", "", ""⟩ = Except.error QErr.invalidQuery ∧
      viewCollectionStoreCall extSample 10 ⟨"", "", none, "bad", [], "", "", ""⟩
        = Except.error QErr.invalidQuery) ∧
    (∀ v, extSample.toSafeBSON "bad" = some v →
      getQuery extSample ⟨"", "", none, "bad", [], "", "", ""⟩ = Except.ok v) :=
  C3_textual_query_path extSample 10 ⟨"", "", none, "bad", [], "", "", ""⟩ (Or.inl rfl)
    (by decide)

/-- Claim C4: when both a key and a value parameter are present (truthy),
the filter builder returns the single-field equality filter
`{key: coercedValue}` with the value coerced by the type tag's converter,
and the assembled plan's `$facet.data` sub-pipeline leads with the
`$match` stage on exactly that filter. -/
theorem C4_simple_equality_filter (ext : External) (req : ReqQuery) (t : String) (cv : JsValue)
    (hk : req.key ≠ "") (hv : req.value ≠ "") (ht : req.type = some t)
    (hc : coerceValue ext (upperAscii t) req.value = Except.ok cv) :
    getQuery ext req = Except.ok (JsValue.vObj [(req.key, cv)]) ∧
    ∀ opts : QueryOptions, ∃ rest,
      innerStages req (JsValue.vObj [(req.key, cv)]) opts
        = JsValue.vObj [("$match", JsValue.vObj [(req.key, cv)])] :: rest := by
  constructor
  · rw [getQuery_keyvalue ext req t hk hv ht, hc]
  · intro opts
    refine ⟨(if opts.sort.length > 0
        then [JsValue.vObj [("$sort", JsValue.vObj opts.sort)]] else [])
      ++ (if opts.projection.jsKeysLen > 0
        then [JsValue.vObj [("$project", opts.projection)]] else []), ?_⟩
    unfold innerStages
    rw [if_neg (by rintro ⟨-, habs⟩; simp [JsValue.isArr] at habs)]
    rfl

/-- Witness for C4 at the spec's example: key `status`, value `active`,
tag `S` — the filter is `(status: "active")` and the plan's match stage
carries it. -/
theorem C4_simple_equality_filter_witness :
    getQuery extSample ⟨"status", "active", some "S", "", [], "", "", ""⟩
      = Except.ok (JsValue.vObj [("status", JsValue.vStr "active")]) ∧
    ∀ opts : QueryOptions, ∃ rest,
      innerStages ⟨"status", "active", some "S", "", [], "", "", ""⟩
          (JsValue.vObj [("status", JsValue.vStr "active")]) opts
        = JsValue.vObj [("$match", JsValue.vObj [("status", JsValue.vStr "active")])] :: rest :=
  C4_simple_equality_filter extSample ⟨"status", "active", some "S", "", [], "", "", ""⟩
    "S" (JsValue.vStr "active") (by decide) (by decide) rfl rfl

/-- Claim C5 (spec-modelled: `bson.parseObjectId` lives in lib/bson, not
under src/, and is modelled per spec §4.1): O-tag coercion succeeds
exactly on strings of 24 hexadecimal characters, is injective there, and
on every other input fails with the invalid-identifier error before any
store access — on the view path the store call is never reached. -/
theorem C5_objectid_coercion (ext : External) (dpp : Int) (req : ReqQuery) (s : String)
    (hk : req.key ≠ "") (hv : req.value ≠ "") (ht : req.type = some "O") :
    (isHex24 s = true → parseObjectId s = Except.ok (JsValue.vObjectId s)) ∧
    (∀ u, isHex24 s = true → isHex24 u = true →
      parseObjectId s = parseObjectId u → s = u) ∧
    (isHex24 s = false → parseObjectId s = Except.error QErr.invalidIdentifier) ∧
    (isHex24 req.value = false →
      viewCollectionStoreCall ext dpp req = Except.error QErr.invalidIdentifier) := by
  refine ⟨fun hs => by simp [parseObjectId, hs], ?_, fun hs => by simp [parseObjectId, hs], ?_⟩
  · intro u hs hu heq
    rw [parseObjectId, parseObjectId, if_pos hs, if_pos hu] at heq
    exact JsValue.vObjectId.inj (Except.ok.inj heq)
  · intro hbad
    have hco : coerceValue ext (upperAscii "O") req.value
        = Except.error QErr.invalidIdentifier := by
      have : coerceValue ext (upperAscii "O") req.value = parseObjectId req.value := rfl
      rw [this, parseObjectId, if_neg (by simp [hbad])]
    have hg : getQuery ext req = Except.error QErr.invalidIdentifier := by
      rw [getQuery_keyvalue ext req "O" hk hv ht, hco]
    unfold viewCollectionStoreCall
    rw [hg]

/-- Witness for C5: `"aaaaaaaaaaaaaaaaaaaaaaaa"` (24 hex characters)
succeeds; the request value `"xyz"` fails with the invalid-identifier
error and the store is never called. -/
theorem C5_objectid_coercion_witness :
    (isHex24 "aaaaaaaaaaaaaaaaaaaaaaaa" = true →
      parseObjectId "aaaaaaaaaaaaaaaaaaaaaaaa"
        = Except.ok (JsValue.vObjectId "aaaaaaaaaaaaaaaaaaaaaaaa")) ∧
    (∀ u, isHex24 "aaaaaaaaaaaaaaaaaaaaaaaa" = true → isHex24 u = true →
      parseObjectId "aaaaaaaaaaaaaaaaaaaaaaaa" = parseObjectId u →
      "aaaaaaaaaaaaaaaaaaaaaaaa" = u) ∧
    (isHex24 "aaaaaaaaaaaaaaaaaaaaaaaa" = false →
      parseObjectId "aaaaaaaaaaaaaaaaaaaaaaaa" = Except.error QErr.invalidIdentifier) ∧
    (isHex24 "xyz" = false →
      viewCollectionStoreCall extSample 10 ⟨"_id", "xyz", some "O", "", [], "", "", ""⟩
        = Except.error QErr.invalidIdentifier) :=
  C5_objectid_coercion extSample 10 ⟨"_id", "xyz", some "O", "", [], "", "", ""⟩
    "aaaaaaaaaaaaaaaaaaaaaaaa" (by decide) (by decide) rfl

/-- Claim C9: on the simple-query path the type tag is upper-cased before
dispatch (so each lowercase tag coerces exactly as its uppercase
counterpart), and the request is rejected with an invalid-type error
exactly when the upper-cased tag lies outside `J, N, O, R, U, S`. -/
theorem C9_type_tag_dispatch (ext : External) (req : ReqQuery) (t : String)
    (hk : req.key ≠ "") (hv : req.value ≠ "") (ht : req.type = some t) :
    (getQuery ext req
      = match coerceValue ext (upperAscii t) req.value with
        | Except.ok c => Except.ok (JsValue.vObj [(req.key, c)])
        | Except.error e => Except.error e) ∧
    (∀ c ∈ (["j", "n", "o", "r", "u", "s"] : List String),
      coerceValue ext (upperAscii c) req.value = coerceValue ext (upperAscii (upperAscii c)) req.value) ∧
    ((∃ u, getQuery ext req = Except.error (QErr.invalidType u))
      ↔ upperAscii t ∉ (["J", "N", "O", "R", "U", "S"] : List String)) := by
  have hbr := getQuery_keyvalue ext req t hk hv ht
  refine ⟨hbr, ?_, ?_⟩
  · intro c hc
    fin_cases hc <;> rfl
  · rw [hbr]
    rcases hres : coerceValue ext (upperAscii t) req.value with c | e
    · rw [← coerce_invalidType_iff ext (upperAscii t) req.value]
      simp [hres]
    · rw [← coerce_invalidType_iff ext (upperAscii t) req.value]
      simp [hres]

/-- Witness for C9 at the lowercase tag `s`: the request with tag `"s"`
behaves as with `"S"`, and is not rejected. -/
theorem C9_type_tag_dispatch_witness :
    (getQuery extSample ⟨"k", "v", some "s", "", [], "", "", ""⟩
      = match coerceValue extSample (upperAscii "s") "v" with
        | Except.ok c => Except.ok (JsValue.vObj [("k", c)])
        | Except.error e => Except.error e) ∧
    (∀ c ∈ (["j", "n", "o", "r", "u", "s"] : List String),
      coerceValue extSample (upperAscii c) "v" = coerceValue extSample (upperAscii (upperAscii c)) "v") ∧
    ((∃ u, getQuery extSample ⟨"k", "v", some "s", "", [], "", "", ""⟩
        = Except.error (QErr.invalidType u))
      ↔ upperAscii "s" ∉ (["J", "N", "O", "R", "U", "S"] : List String)) :=
  C9_type_tag_dispatch extSample ⟨"k", "v", some "s", "", [], "", "", ""⟩ "s"
    (by decide) (by decide) rfl

/-- Claim C1: for every `limit > 0`, `skip ≥ 0`, `totalCount ≥ 0` the
pagination calculator returns `here = round(skip/limit) + 1`,
`prev/prev2/next/next2` with the stated page/skip formulas, and
`last = (ceil(totalCount/limit) - 1) * limit`; moreover, whenever the
result set is non-empty, `last` is the skip offset of the final non-empty
page: it is a multiple of `limit` and the window `[last, last + limit)`
contains the index of the last document (`last < totalCount ≤ last + limit`). -/
theorem C1_pagination_calculator (limit skip count : Int)
    (hl : 0 < limit) (hs : 0 ≤ skip) (hc : 0 ≤ count) :
    (paginate skip limit count).here = jsRound skip limit + 1 ∧
    (paginate skip limit count).prev
      = ⟨jsRound (skip - limit) limit + 1, skip - limit⟩ ∧
    (paginate skip limit count).prev2
      = ⟨jsRound (skip - 2 * limit) limit + 1, skip - 2 * limit⟩ ∧
    (paginate skip limit count).next
      = ⟨jsRound (skip + limit) limit + 1, skip + limit⟩ ∧
    (paginate skip limit count).next2
      = ⟨jsRound (skip + 2 * limit) limit + 1, skip + 2 * limit⟩ ∧
    (paginate skip limit count).last = (jsCeilDiv count limit - 1) * limit ∧
    (0 < count → ∃ k : Int,
      (paginate skip limit count).last = k * limit ∧
      (paginate skip limit count).last < count ∧
      count ≤ (paginate skip limit count).last + limit) := by
  refine ⟨rfl, rfl, by simp [paginate, mul_comm], rfl, by simp [paginate, mul_comm], rfl, ?_⟩
  intro _
  refine ⟨jsCeilDiv count limit - 1, rfl, ?_, ?_⟩ <;>
  · simp only [paginate, jsCeilDiv, Int.fdiv_eq_ediv _ hl.le]
    have hmod := Int.ediv_add_emod (count + limit - 1) limit
    have h0 : 0 ≤ (count + limit - 1) % limit := Int.emod_nonneg _ hl.ne'
    have h1 : (count + limit - 1) % limit < limit := Int.emod_lt_of_pos _ hl
    have hq : ((count + limit - 1) / limit - 1) * limit
        = limit * ((count + limit - 1) / limit) - limit := by ring
    omega

/-- Witness for C1 at `limit = 5`, `skip = 10`, `totalCount = 12`:
`last = 10` is a multiple of 5 and `10 < 12 ≤ 15`. -/
theorem C1_pagination_calculator_witness :
    (paginate 10 5 12).last = (jsCeilDiv 12 5 - 1) * 5 ∧
    (0 < (12 : Int) → ∃ k : Int, (paginate 10 5 12).last = k * 5 ∧
      (paginate 10 5 12).last < 12 ∧ (12 : Int) ≤ (paginate 10 5 12).last + 5) :=
  ⟨(C1_pagination_calculator 5 10 12 (by decide) (by decide) (by decide)).2.2.2.2.2.1,
   (C1_pagination_calculator 5 10 12 (by decide) (by decide) (by decide)).2.2.2.2.2.2⟩

/-- Claim C2: for every filter, sort spec, projection spec, skip and
limit, the `$facet.data` sub-pipeline of the assembled plan contains, in
order: the filter's stages verbatim when the raw-pipeline opt-in
(`runAggregate === 'on'`) is set and the filter is an array, otherwise a
single `$match` stage exactly when the filter is non-empty; then a
`$sort` stage iff the sort spec is non-empty; then a `$project` stage iff
the projection spec is non-empty; and the final combined stage reports
the total count of, and the slice `[skip, skip + limit)` of, one and the
same filtered/sorted/projected list, so count and page are mutually
consistent. -/
theorem C2_query_plan_assembly (req : ReqQuery) (query : JsValue)
    (opts : QueryOptions) (store : List Doc) (hsk : 0 ≤ opts.skip) :
    (innerStages req query opts
      = (if req.runAggregate = "on" ∧ query.isArr = true then query.arrElems
         else if query.jsKeysLen > 0 then [JsValue.vObj [("$match", query)]] else [])
        ++ (if opts.sort.length > 0 then [JsValue.vObj [("$sort", JsValue.vObj opts.sort)]] else [])
        ++ (if opts.projection.jsKeysLen > 0
            then [JsValue.vObj [("$project", opts.projection)]] else [])) ∧
    evalAggPlan (getQueryAggregate req query opts) store
      = some ⟨(runStages (innerStages req query opts) store).length,
          ((runStages (innerStages req query opts) store).drop opts.skip.toNat).take
            opts.limit.toNat⟩ := by
  constructor
  · rfl
  · have h : evalAggPlan (getQueryAggregate req query opts) store
        = some ⟨(runStages (innerStages req query opts) store).length,
            sliceList (runStages (innerStages req query opts) store) opts.skip opts.limit⟩ := rfl
    rw [h]
    simp only [sliceList, if_pos hsk]

/-- Witness for C2: a request with no raw-pipeline opt-in, the filter
`{a: 1}`, a one-field sort, no projection, skip 1 and limit 2 over a
three-document store. -/
theorem C2_query_plan_assembly_witness :
    (innerStages ⟨"", "", none, "", [], "", "1", ""⟩ (JsValue.vObj [("a", JsValue.vNum 1)])
        ⟨[("a", JsValue.vNum 1)], 2, 1, JsValue.vObj []⟩
      = (if ("" : String) = "on" ∧ (JsValue.vObj [("a", JsValue.vNum 1)]).isArr = true
         then (JsValue.vObj [("a", JsValue.vNum 1)]).arrElems
         else if (JsValue.vObj [("a", JsValue.vNum 1)]).jsKeysLen > 0
           then [JsValue.vObj [("$match", JsValue.vObj [("a", JsValue.vNum 1)])]] else [])
        ++ (if ([("a", JsValue.vNum 1)] : List (String × JsValue)).length > 0
            then [JsValue.vObj [("$sort", JsValue.vObj [("a", JsValue.vNum 1)])]] else [])
        ++ (if (JsValue.vObj []).jsKeysLen > 0
            then [JsValue.vObj [("$project", JsValue.vObj [])]] else [])) ∧
    evalAggPlan
        (getQueryAggregate ⟨"", "", none, "", [], "", "1", ""⟩
          (JsValue.vObj [("a", JsValue.vNum 1)])
          ⟨[("a", JsValue.vNum 1)], 2, 1, JsValue.vObj []⟩)
        [[("a", JsValue.vNum 1)], [("a", JsValue.vNum 2)], [("a", JsValue.vNum 1)]]
      = some ⟨(runStages
            (innerStages ⟨"", "", none, "", [], "", "1", ""⟩
              (JsValue.vObj [("a", JsValue.vNum 1)])
              ⟨[("a", JsValue.vNum 1)], 2, 1, JsValue.vObj []⟩)
            [[("a", JsValue.vNum 1)], [("a", JsValue.vNum 2)], [("a", JsValue.vNum 1)]]).length,
          ((runStages
            (innerStages ⟨"", "", none, "", [], "", "1", ""⟩
              (JsValue.vObj [("a", JsValue.vNum 1)])
              ⟨[("a", JsValue.vNum 1)], 2, 1, JsValue.vObj []⟩)
            [[("a", JsValue.vNum 1)], [("a", JsValue.vNum 2)], [("a", JsValue.vNum 1)]]).drop
              (1 : Int).toNat).take (2 : Int).toNat⟩ :=
  C2_query_plan_assembly ⟨"", "", none, "", [], "", "1", ""⟩
    (JsValue.vObj [("a", JsValue.vNum 1)])
    ⟨[("a", JsValue.vNum 1)], 2, 1, JsValue.vObj []⟩
    [[("a", JsValue.vNum 1)], [("a", JsValue.vNum 2)], [("a", JsValue.vNum 1)]]
    (by decide)

/-- Claim C6: in the field-level pass, every field whose estimated size
exceeds the per-field threshold is replaced by a stub carrying the
attribute name, the display label, the human-readable size and threshold,
a preview that is a prefix (at most 25 characters) of the field's
serialized form, the raw byte-size estimate, and the document's
identifier; fields at or below the threshold are left unchanged. -/
theorem C6_field_level_redaction (cfg : RedactCfg) (d : Doc) (k : String) (v : JsValue)
    (hnd : (keysOf d).Nodup)
    (hid : ¬cfg.sz (lookupField d "_id") > cfg.maxPropSize)
    (hmem : (k, v) ∈ d) :
    (cfg.sz v > cfg.maxPropSize →
      lookupField (fieldPass cfg d) k
        = JsValue.vObj [
            ("attribu", JsValue.vStr k),
            ("display", JsValue.vStr "*** LARGE PROPERTY ***"),
            ("humanSz", JsValue.vStr (cfg.bts (cfg.sz v))),
            ("maxSize", JsValue.vStr (cfg.bts cfg.maxPropSize)),
            ("preview", JsValue.vStr (JsValue.sliceStr v.toJson 25)),
            ("roughSz", JsValue.vNum (cfg.sz v)),
            ("_id", lookupField d "_id")] ∧
      (JsValue.sliceStr v.toJson 25).length ≤ 25 ∧
      (∃ r, JsValue.sliceStr v.toJson 25 ++ r = v.toJson)) ∧
    (¬cfg.sz v > cfg.maxPropSize → lookupField (fieldPass cfg d) k = v) := by
  have hmap := fieldPass_eq_map cfg d hnd (fun _ => hid)
  have hl := lookupField_map_ite
    (fun q : String × JsValue => cfg.sz q.2 > cfg.maxPropSize)
    (fun q : String × JsValue => mkStub cfg "*** LARGE PROPERTY ***" cfg.maxPropSize q.1 q.2
      (lookupField d "_id"))
    hnd hmem
  constructor
  · intro hbig
    refine ⟨?_, sliceStr_length_le _ _,
      ⟨String.mk (v.toJson.toList.drop 25), sliceStr_append_drop _ _⟩⟩
    rw [hmap]
    refine hl.trans ?_
    rw [if_pos hbig]
    rfl
  · intro hsmall
    rw [hmap]
    exact hl.trans (if_neg hsmall)


/-- Witness for C6 at `sampleCfg 3 1000000` on `cexDoc`: the field
`a = "hello"` serializes to 7 bytes, exceeds the threshold 3 and is
replaced by the stub; the `_id` field (1 byte) is untouched. -/
theorem C6_field_level_redaction_witness :
    ((sampleCfg 3 1000000).sz (JsValue.vStr "hello") > (sampleCfg 3 1000000).maxPropSize →
      lookupField (fieldPass (sampleCfg 3 1000000) cexDoc) "a"
        = JsValue.vObj [
            ("attribu", JsValue.vStr "a"),
            ("display", JsValue.vStr "*** LARGE PROPERTY ***"),
            ("humanSz", JsValue.vStr ((sampleCfg 3 1000000).bts
              ((sampleCfg 3 1000000).sz (JsValue.vStr "hello")))),
            ("maxSize", JsValue.vStr ((sampleCfg 3 1000000).bts (sampleCfg 3 1000000).maxPropSize)),
            ("preview", JsValue.vStr (JsValue.sliceStr (JsValue.vStr "hello").toJson 25)),
            ("roughSz", JsValue.vNum ((sampleCfg 3 1000000).sz (JsValue.vStr "hello"))),
            ("_id", lookupField cexDoc "_id")] ∧
      (JsValue.sliceStr (JsValue.vStr "hello").toJson 25).length ≤ 25 ∧
      (∃ r, JsValue.sliceStr (JsValue.vStr "hello").toJson 25 ++ r
        = (JsValue.vStr "hello").toJson)) ∧
    (¬(sampleCfg 3 1000000).sz (JsValue.vStr "hello") > (sampleCfg 3 1000000).maxPropSize →
      lookupField (fieldPass (sampleCfg 3 1000000) cexDoc) "a" = JsValue.vStr "hello") :=
  C6_field_level_redaction (sampleCfg 3 1000000) cexDoc "a" (JsValue.vStr "hello")
    (by decide) (by decide) (List.Mem.tail _ (List.Mem.head _))

/-- Claim C10: in the document-level pass (triggered when the document
still exceeds the row threshold), a field is replaced only if it is not
named `_id` and its estimated size exceeds the fixed 200-byte floor —
`_id` is never replaced and fields of 200 bytes or less survive — and
every stub's preview is the (at most 25 character) initial slice of the
JSON serialization of the value it replaces. -/
theorem C10_row_level_redaction (cfg : RedactCfg) (d : Doc) (k : String) (v : JsValue)
    (hnd : (keysOf d).Nodup) (hmem : (k, v) ∈ d)
    (hbig : cfg.sz (JsValue.vObj d) > cfg.maxRowSize) :
    (k = "_id" → lookupField (rowPass cfg d) k = v) ∧
    (cfg.sz v ≤ 200 → lookupField (rowPass cfg d) k = v) ∧
    (k ≠ "_id" → cfg.sz v > 200 →
      lookupField (rowPass cfg d) k
        = mkStub cfg "*** LARGE ROW ***" cfg.maxRowSize k v (lookupField d "_id")) ∧
    (∀ display thr prop w idv,
      mkStub cfg display thr prop w idv
        = JsValue.vObj [
            ("attribu", JsValue.vStr prop),
            ("display", JsValue.vStr display),
            ("humanSz", JsValue.vStr (cfg.bts (cfg.sz w))),
            ("maxSize", JsValue.vStr (cfg.bts thr)),
            ("preview", JsValue.vStr (JsValue.sliceStr w.toJson 25)),
            ("roughSz", JsValue.vNum (cfg.sz w)),
            ("_id", idv)] ∧
      (JsValue.sliceStr w.toJson 25).length ≤ 25 ∧
      (∃ r, JsValue.sliceStr w.toJson 25 ++ r = w.toJson)) := by
  have hmap := rowPass_eq_map cfg d hnd hbig
  have hl := lookupField_map_ite
    (fun q : String × JsValue => q.1 ≠ "_id" ∧ cfg.sz q.2 > 200)
    (fun q : String × JsValue => mkStub cfg "*** LARGE ROW ***" cfg.maxRowSize q.1 q.2
      (lookupField d "_id"))
    hnd hmem
  refine ⟨?_, ?_, ?_, ?_⟩
  · intro hk
    rw [hmap]
    exact hl.trans (if_neg (fun hcon => hcon.1 hk))
  · intro hsmall
    rw [hmap]
    exact hl.trans (if_neg (fun hcon => absurd hcon.2 (Nat.not_lt.mpr hsmall)))
  · intro hk hbigv
    rw [hmap]
    exact hl.trans (by rw [if_pos ⟨hk, hbigv⟩])
  · intro display thr prop w idv
    exact ⟨rfl, sliceStr_length_le _ _,
      ⟨String.mk (w.toJson.toList.drop 25), sliceStr_append_drop _ _⟩⟩

/-- Witness for C10 at `sampleCfg 1000000 10` on `cexDoc` (the document's
21-byte serialization exceeds the row threshold 10): the `_id` field and
the 7-byte field `a` both survive the document-level pass. -/
theorem C10_row_level_redaction_witness :
    (("a" : String) = "_id" →
      lookupField (rowPass (sampleCfg 1000000 10) cexDoc) "a" = JsValue.vStr "hello") ∧
    ((sampleCfg 1000000 10).sz (JsValue.vStr "hello") ≤ 200 →
      lookupField (rowPass (sampleCfg 1000000 10) cexDoc) "a" = JsValue.vStr "hello") ∧
    (("a" : String) ≠ "_id" → (sampleCfg 1000000 10).sz (JsValue.vStr "hello") > 200 →
      lookupField (rowPass (sampleCfg 1000000 10) cexDoc) "a"
        = mkStub (sampleCfg 1000000 10) "*** LARGE ROW ***" (sampleCfg 1000000 10).maxRowSize
            "a" (JsValue.vStr "hello") (lookupField cexDoc "_id")) ∧
    (∀ display thr prop w idv,
      mkStub (sampleCfg 1000000 10) display thr prop w idv
        = JsValue.vObj [
            ("attribu", JsValue.vStr prop),
            ("display", JsValue.vStr display),
            ("humanSz", JsValue.vStr ((sampleCfg 1000000 10).bts ((sampleCfg 1000000 10).sz w))),
            ("maxSize", JsValue.vStr ((sampleCfg 1000000 10).bts thr)),
            ("preview", JsValue.vStr (JsValue.sliceStr w.toJson 25)),
            ("roughSz", JsValue.vNum ((sampleCfg 1000000 10).sz w)),
            ("_id", idv)] ∧
      (JsValue.sliceStr w.toJson 25).length ≤ 25 ∧
      (∃ r, JsValue.sliceStr w.toJson 25 ++ r = w.toJson)) :=
  C10_row_level_redaction (sampleCfg 1000000 10) cexDoc "a" (JsValue.vStr "hello")
    (by decide) (List.Mem.tail _ (List.Mem.head _)) (by decide)

set_option maxRecDepth 100000 in
/-- Counterexample to claim C7 as stated: stub sizes are not below every
configurable threshold.  With the serialized-length size estimate and a
per-field threshold of 3, the field `a = "hello"` of `cexDoc` is stubbed,
the stub itself exceeds the threshold, and a second application of the
redactor replaces the stub with a stub-of-the-stub (a different
preview), so the redactor is not idempotent. -/
theorem C7_redactor_not_idempotent :
    redactDoc (sampleCfg 3 1000000) (redactDoc (sampleCfg 3 1000000) cexDoc)
      ≠ redactDoc (sampleCfg 3 1000000) cexDoc := by
  intro h
  exact absurd (congrArg (fun d : Doc => (JsValue.vObj d).toJson) h) (by decide)

/-- Claim C7 as amended: the two-pass redactor is idempotent provided
every stub the configuration can produce has estimated size at most the
per-field threshold and at most the 200-byte document-pass floor (the
situation the claim's justification asserts); it is not idempotent for
arbitrary configured thresholds (see the counterexample). -/
theorem C7_redactor_conditional_idempotence (cfg : RedactCfg) (d : Doc)
    (hnd : (keysOf d).Nodup)
    (hstub : ∀ display thr k v i,
      cfg.sz (mkStub cfg display thr k v i) ≤ cfg.maxPropSize ∧
      cfg.sz (mkStub cfg display thr k v i) ≤ 200) :
    redactDoc cfg (redactDoc cfg d) = redactDoc cfg d := by
  have hnd1 : (keysOf (fieldPass cfg d)).Nodup := by
    rw [keysOf_fieldPass]
    exact hnd
  have hA1 : ∀ p ∈ fieldPass cfg d, cfg.sz p.2 ≤ cfg.maxPropSize := by
    intro p hp
    unfold fieldPass at hp
    exact fieldFold_all_le cfg (fun display thr k v i => (hstub display thr k v i).1)
      (keysOf d) d hnd hnd
      (fun q hq hqk => absurd (List.mem_map_of_mem Prod.fst hq) hqk) p hp
  by_cases hbig : cfg.sz (JsValue.vObj (fieldPass cfg d)) > cfg.maxRowSize
  · have hmap2 := rowPass_eq_map cfg (fieldPass cfg d) hnd1 hbig
    have hkeep2 : ∀ p : String × JsValue, ((if p.1 ≠ "_id" ∧ cfg.sz p.2 > 200
        then (p.1, mkStub cfg "*** LARGE ROW ***" cfg.maxRowSize p.1 p.2
          (lookupField (fieldPass cfg d) "_id"))
        else p)).1 = p.1 := by
      intro p
      by_cases hp : p.1 ≠ "_id" ∧ cfg.sz p.2 > 200 <;> simp [hp]
    have hnd2 : (keysOf (rowPass cfg (fieldPass cfg d))).Nodup := by
      rw [hmap2, keysOf_map_keep _ _ hkeep2]
      exact hnd1
    have hA2 : ∀ p ∈ rowPass cfg (fieldPass cfg d), cfg.sz p.2 ≤ cfg.maxPropSize := by
      intro p hp
      rw [hmap2] at hp
      rcases List.mem_map.mp hp with ⟨q, hq, hpq⟩
      subst hpq
      by_cases hb : q.1 ≠ "_id" ∧ cfg.sz q.2 > 200
      · rw [if_pos hb]
        exact (hstub _ _ _ _ _).1
      · rw [if_neg hb]
        exact hA1 q hq
    have hB2 : ∀ p ∈ rowPass cfg (fieldPass cfg d), p.1 ≠ "_id" → ¬cfg.sz p.2 > 200 := by
      intro p hp hk
      rw [hmap2] at hp
      rcases List.mem_map.mp hp with ⟨q, hq, hpq⟩
      by_cases hb : q.1 ≠ "_id" ∧ cfg.sz q.2 > 200
      · rw [← hpq, if_pos hb]
        exact Nat.not_lt.mpr (hstub _ _ _ _ _).2
      · rw [← hpq, if_neg hb]
        have hqk : q.1 ≠ "_id" := by
          rw [← hpq, if_neg hb] at hk
          exact hk
        intro hcon
        exact hb ⟨hqk, hcon⟩
    show rowPass cfg (fieldPass cfg (rowPass cfg (fieldPass cfg d)))
      = rowPass cfg (fieldPass cfg d)
    rw [fieldPass_id_of_small cfg _ hnd2 (fun p hp => Nat.not_lt.mpr (hA2 p hp))]
    exact rowPass_id_of_small_fields cfg _ hnd2 hB2
  · have h1 : redactDoc cfg d = fieldPass cfg d := rowPass_of_small cfg _ hbig
    show redactDoc cfg (redactDoc cfg d) = redactDoc cfg d
    rw [h1]
    show rowPass cfg (fieldPass cfg (fieldPass cfg d)) = fieldPass cfg d
    rw [fieldPass_id_of_small cfg _ hnd1 (fun p hp => Nat.not_lt.mpr (hA1 p hp))]
    exact rowPass_of_small cfg _ hbig

/-- Witness for the amended C7: the zero-size configuration satisfies the
stub-size bounds, and redaction of `cexDoc` under it is idempotent. -/
theorem C7_redactor_conditional_idempotence_witness :
    redactDoc zeroSizeCfg (redactDoc zeroSizeCfg cexDoc) = redactDoc zeroSizeCfg cexDoc :=
  C7_redactor_conditional_idempotence zeroSizeCfg cexDoc (by decide)
    (fun _ _ _ _ _ => ⟨Nat.le_refl 0, Nat.zero_le 200⟩)

/-- Claim C8: every export handler re-applies, verbatim, whatever filter
the Safe Filter Builder produces (simple key/value, textual, or empty)
together with the Sort Builder's sort, and its find options carry no skip
and no limit (the export data path applies no redaction: documents go
straight to the serializer); a filter-builder failure propagates and no
find call is made; with the empty filter and no sort the store's find
returns every document in store-native order, and the line-delimited
format emits each document's JSON serialization followed by the line
terminator, in that order. -/
theorem C8_export_paths (ext : External) (req : ReqQuery) (store : List Doc) :
    (∀ q, getQuery ext req = Except.ok q →
      exportFindCall ext req = Except.ok (q, ⟨getSort ext req, none, none⟩)) ∧
    (∀ e, getQuery ext req = Except.error e →
      exportFindCall ext req = Except.error e) ∧
    findSem store (JsValue.vObj []) ⟨[], none, none⟩ = store ∧
    exportNdjson "\n" (findSem store (JsValue.vObj []) ⟨[], none, none⟩)
      = String.join (store.map (fun d => (JsValue.vObj d).toJson ++ "\n")) := by
  have hfind : findSem store (JsValue.vObj []) ⟨[], none, none⟩ = store := by
    unfold findSem
    simp [matchesFilter, sortDocs]
  refine ⟨?_, ?_, hfind, ?_⟩
  · intro q hq
    unfold exportFindCall
    rw [hq]
  · intro e he
    unfold exportFindCall
    rw [he]
  · rw [hfind]
    rfl

/-- Witness for C8 at a simple key/value request (filter
`(status: "active")`) over a two-document store. -/
theorem C8_export_paths_witness :
    (∀ q, getQuery extSample ⟨"status", "active", some "S", "", [], "", "", ""⟩ = Except.ok q →
      exportFindCall extSample ⟨"status", "active", some "S", "", [], "", "", ""⟩
        = Except.ok (q,
            ⟨getSort extSample ⟨"status", "active", some "S", "", [], "", "", ""⟩,
              none, none⟩)) ∧
    (∀ e, getQuery extSample ⟨"status", "active", some "S", "", [], "", "", ""⟩
        = Except.error e →
      exportFindCall extSample ⟨"status", "active", some "S", "", [], "", "", ""⟩
        = Except.error e) ∧
    findSem [[("a", JsValue.vNum 1)], [("b", JsValue.vStr "x")]]
        (JsValue.vObj []) ⟨[], none, none⟩
      = [[("a", JsValue.vNum 1)], [("b", JsValue.vStr "x")]] ∧
    exportNdjson "\n" (findSem [[("a", JsValue.vNum 1)], [("b", JsValue.vStr "x")]]
        (JsValue.vObj []) ⟨[], none, none⟩)
      = String.join ([[("a", JsValue.vNum 1)], [("b", JsValue.vStr "x")]].map
          (fun d => (JsValue.vObj d).toJson ++ "\n")) :=
  C8_export_paths extSample ⟨"status", "active", some "S", "", [], "", "", ""⟩
    [[("a", JsValue.vNum 1)], [("b", JsValue.vStr "x")]]

end MongoGem
